import Mathlib

/-!
# Verification of the Spectron NDVI analysis backend

Shallow embedding of the core of the Spectron repository
(`backend/src/ndvi.py`, `analysis.py`, `fetch.py`, `search.py`,
`database/database.py`, `visualize.py`) together with theorems settling
the frozen claims about it.

Machine floats of the Python code are modelled over `ℚ` (the claims at
stake are algebraic: ranges, orderings, equalities of discrete data);
`numpy` arrays are modelled as lists; a `datetime` is modelled at day
precision as a bundle of an absolute day number plus its calendar month
and year, which is how the selector consumes it.
-/

namespace Spectron

/-! ## `ndvi.py` — index computation -/

/-- The per-pixel body of `compute_ndvi` (`ndvi.py` lines 9-16): scale the
raw integer reflectances by 0.0001, combine as
`(nir - red) / (nir + red + 1e-10)`, and clip to `[-1, 1]`.
Raw band values are the non-negative integers of the uint16 rasters. -/
def ndviPixel (red nir : ℕ) : ℚ :=
  let red_scaled : ℚ := (red : ℚ) * (1 / 10000)
  let nir_scaled : ℚ := (nir : ℚ) * (1 / 10000)
  let ndvi : ℚ := (nir_scaled - red_scaled) / (nir_scaled + red_scaled + 1 / 10 ^ 10)
  min (max ndvi (-1)) 1

/-- `compute_ndvi` (`ndvi.py`): elementwise combination of the two bands
(arrays of equal shape, flattened to lists). -/
def compute_ndvi (red nir : List ℕ) : List ℚ :=
  List.zipWith ndviPixel red nir

/-- `diff_ndvi` (`ndvi.py`): elementwise `ndvi2 - ndvi1`. -/
def diff_ndvi (ndvi1 ndvi2 : List ℚ) : List ℚ :=
  List.zipWith (fun a b => b - a) ndvi2 ndvi1

theorem ndviPixel_mem_Icc (red nir : ℕ) :
    ndviPixel red nir ∈ Set.Icc (-1 : ℚ) 1 := by
  unfold ndviPixel
  constructor
  · exact le_min (le_max_right _ _) (by norm_num)
  · exact min_le_right _ _

theorem ndviPixel_denom_pos (red nir : ℕ) :
    (0 : ℚ) < (red : ℚ) * (1 / 10000) + (nir : ℚ) * (1 / 10000) + 1 / 10 ^ 10 := by
  have h1 : (0 : ℚ) ≤ (red : ℚ) * (1 / 10000) := by positivity
  have h2 : (0 : ℚ) ≤ (nir : ℚ) * (1 / 10000) := by positivity
  nlinarith

theorem mem_zipWith_range {α : Type} (f : ℕ → ℕ → α) (P : α → Prop)
    (hP : ∀ a b, P (f a b)) :
    ∀ (as bs : List ℕ), ∀ x ∈ List.zipWith f as bs, P x := by
  intro as
  induction as with
  | nil => intro bs x hx; simp at hx
  | cons a as ih =>
    intro bs x hx
    cases bs with
    | nil => simp at hx
    | cons b bs =>
      simp only [List.zipWith_cons_cons, List.mem_cons] at hx
      rcases hx with h | h
      · exact h ▸ hP a b
      · exact ih bs x h

/-- C1: `compute_ndvi` on same-shape non-negative integer bands yields an
array of the same shape, every element in `[-1, 1]`, each element being the
clipped quotient `(nir - red) / (nir + red + 1e-10)` of the 0.0001-scaled
bands; the all-zero pixel divides by the strictly positive `1e-10`, not by
exact zero, and yields `0`, which is in range. -/
theorem compute_ndvi_range (red nir : List ℕ) (hlen : red.length = nir.length) :
    (compute_ndvi red nir).length = red.length ∧
    (∀ x ∈ compute_ndvi red nir, -1 ≤ x ∧ x ≤ 1) ∧
    (∀ i : ℕ, ∀ hi : i < (compute_ndvi red nir).length,
      (compute_ndvi red nir).get ⟨i, hi⟩ =
        min (max ((((nir.getD i 0 : ℚ) * (1 / 10000)) - ((red.getD i 0 : ℚ) * (1 / 10000))) /
          (((nir.getD i 0 : ℚ) * (1 / 10000)) + ((red.getD i 0 : ℚ) * (1 / 10000)) + 1 / 10 ^ 10))
          (-1)) 1) ∧
    ((0 : ℚ) * (1 / 10000) + (0 : ℚ) * (1 / 10000) + 1 / 10 ^ 10 ≠ 0 ∧ ndviPixel 0 0 = 0) := by
  refine ⟨?_, ?_, ?_, ?_, ?_⟩
  · simp [compute_ndvi, hlen]
  · intro x hx
    have := mem_zipWith_range ndviPixel (fun x => -1 ≤ x ∧ x ≤ 1)
      (fun a b => ndviPixel_mem_Icc a b) red nir x hx
    exact this
  · intro i hi
    have hir : i < red.length := by
      simpa [compute_ndvi, hlen] using hi
    have hin : i < nir.length := hlen ▸ hir
    have hget : (compute_ndvi red nir).get ⟨i, hi⟩ =
        ndviPixel (red.get ⟨i, hir⟩) (nir.get ⟨i, hin⟩) := by
      simp [compute_ndvi, List.get_eq_getElem, List.getElem_zipWith]
    rw [hget]
    have hr : red.getD i 0 = red.get ⟨i, hir⟩ := by
      simp [List.getD_eq_getElem, hir, List.get_eq_getElem]
    have hn : nir.getD i 0 = nir.get ⟨i, hin⟩ := by
      simp [List.getD_eq_getElem, hin, List.get_eq_getElem]
    rw [hr, hn]
    rfl
  · norm_num
  · unfold ndviPixel
    norm_num

/-- C1 witness at a concrete pair of bands including the all-zero pixel. -/
theorem compute_ndvi_range_witness :
    ([0, 5000, 10000] : List ℕ).length = ([0, 8000, 2000] : List ℕ).length ∧
    (∀ x ∈ compute_ndvi [0, 5000, 10000] [0, 8000, 2000], -1 ≤ x ∧ x ≤ 1) :=
  ⟨by decide, (compute_ndvi_range [0, 5000, 10000] [0, 8000, 2000] (by decide)).2.1⟩

/-! ## `database.py` — deterministic analysis identity

`generate_analysis_id` hashes the canonical parameter string with
`hashlib.md5`; the MD5 algorithm (RFC 1321) is embedded below over lists
of byte values (`ℕ` below 256), with 32-bit words as `ℕ` reduced mod
`2 ^ 32`. -/

namespace MD5

/-- Left-rotation of a 32-bit word. -/
def rotl32 (x s : ℕ) : ℕ :=
  ((x <<< s) ||| (x >>> (32 - s))) % 2 ^ 32

/-- The 64 round constants `floor(2^32 * |sin(i+1)|)` of RFC 1321. -/
def K : List ℕ :=
  [0xd76aa478, 0xe8c7b756, 0x242070db, 0xc1bdceee,
   0xf57c0faf, 0x4787c62a, 0xa8304613, 0xfd469501,
   0x698098d8, 0x8b44f7af, 0xffff5bb1, 0x895cd7be,
   0x6b901122, 0xfd987193, 0xa679438e, 0x49b40821,
   0xf61e2562, 0xc040b340, 0x265e5a51, 0xe9b6c7aa,
   0xd62f105d, 0x02441453, 0xd8a1e681, 0xe7d3fbc8,
   0x21e1cde6, 0xc33707d6, 0xf4d50d87, 0x455a14ed,
   0xa9e3e905, 0xfcefa3f8, 0x676f02d9, 0x8d2a4c8a,
   0xfffa3942, 0x8771f681, 0x6d9d6122, 0xfde5380c,
   0xa4beea44, 0x4bdecfa9, 0xf6bb4b60, 0xbebfbc70,
   0x289b7ec6, 0xeaa127fa, 0xd4ef3085, 0x04881d05,
   0xd9d4d039, 0xe6db99e5, 0x1fa27cf8, 0xc4ac5665,
   0xf4292244, 0x432aff97, 0xab9423a7, 0xfc93a039,
   0x655b59c3, 0x8f0ccc92, 0xffeff47d, 0x85845dd1,
   0x6fa87e4f, 0xfe2ce6e0, 0xa3014314, 0x4e0811a1,
   0xf7537e82, 0xbd3af235, 0x2ad7d2bb, 0xeb86d391]

/-- The per-round left-rotation amounts of RFC 1321. -/
def S : List ℕ :=
  [7, 12, 17, 22, 7, 12, 17, 22, 7, 12, 17, 22, 7, 12, 17, 22,
   5, 9, 14, 20, 5, 9, 14, 20, 5, 9, 14, 20, 5, 9, 14, 20,
   4, 11, 16, 23, 4, 11, 16, 23, 4, 11, 16, 23, 4, 11, 16, 23,
   6, 10, 15, 21, 6, 10, 15, 21, 6, 10, 15, 21, 6, 10, 15, 21]

/-- Message-word index for round `i`. -/
def gIdx (i : ℕ) : ℕ :=
  if i < 16 then i
  else if i < 32 then (5 * i + 1) % 16
  else if i < 48 then (3 * i + 5) % 16
  else (7 * i) % 16

/-- The nonlinear mixing function for round `i` on words `b c d`. -/
def mixF (i b c d : ℕ) : ℕ :=
  if i < 16 then (b &&& c) ||| ((b ^^^ 0xffffffff) &&& d)
  else if i < 32 then (d &&& b) ||| ((d ^^^ 0xffffffff) &&& c)
  else if i < 48 then b ^^^ c ^^^ d
  else c ^^^ (b ||| (d ^^^ 0xffffffff))

/-- One MD5 round on the register tuple, with `M` the 16 message words of
the current chunk. -/
def round (M : ℕ → ℕ) (st : ℕ × ℕ × ℕ × ℕ) (i : ℕ) : ℕ × ℕ × ℕ × ℕ :=
  let (a, b, c, d) := st
  let f := (mixF i b c d + a + K.getD i 0 + M (gIdx i)) % 2 ^ 32
  (d, (b + rotl32 f (S.getD i 0)) % 2 ^ 32, b, c)

/-- Little-endian decoding of message word `g` from a 64-byte chunk. -/
def wordOf (chunk : List ℕ) (g : ℕ) : ℕ :=
  chunk.getD (4 * g) 0 + chunk.getD (4 * g + 1) 0 * 2 ^ 8 +
    chunk.getD (4 * g + 2) 0 * 2 ^ 16 + chunk.getD (4 * g + 3) 0 * 2 ^ 24

/-- Process one 64-byte chunk: 64 rounds, then add into the running state. -/
def processChunk (st : ℕ × ℕ × ℕ × ℕ) (chunk : List ℕ) : ℕ × ℕ × ℕ × ℕ :=
  let r := (List.range 64).foldl (round (wordOf chunk)) st
  ((st.1 + r.1) % 2 ^ 32, (st.2.1 + r.2.1) % 2 ^ 32,
   (st.2.2.1 + r.2.2.1) % 2 ^ 32, (st.2.2.2 + r.2.2.2) % 2 ^ 32)

/-- Little-endian serialization of `x` into `n` bytes. -/
def toBytesLE : ℕ → ℕ → List ℕ
  | 0, _ => []
  | n + 1, x => x % 2 ^ 8 :: toBytesLE n (x / 2 ^ 8)

/-- MD5 padding: a 0x80 byte, zeros to 56 mod 64, then the bit length as
eight little-endian bytes. -/
def pad (msg : List ℕ) : List ℕ :=
  msg ++ (0x80 :: List.replicate ((119 - msg.length % 64) % 64) 0) ++
    toBytesLE 8 ((8 * msg.length) % 2 ^ 64)

/-- Split a byte list into its 64-byte chunks (the padded message length
is a multiple of 64, so every chunk is full). -/
def chunks64 (l : List ℕ) : List (List ℕ) :=
  (List.range ((l.length + 63) / 64)).map (fun i => (l.drop (64 * i)).take 64)

/-- The 16-byte MD5 digest of a byte list. -/
def digestBytes (msg : List ℕ) : List ℕ :=
  let st := (chunks64 (pad msg)).foldl processChunk
    (0x67452301, 0xefcdab89, 0x98badcfe, 0x10325476)
  toBytesLE 4 st.1 ++ toBytesLE 4 st.2.1 ++ toBytesLE 4 st.2.2.1 ++ toBytesLE 4 st.2.2.2

/-- A hexadecimal digit character. -/
def hexChar (n : ℕ) : Char :=
  (String.data "0123456789abcdef").getD n '0'

/-- The two hex characters of one byte. -/
def byteToHex (b : ℕ) : List Char :=
  [hexChar (b / 16), hexChar (b % 16)]

/-- The character list of `hexdigest()`: two lowercase hex digits per
digest byte. -/
def hexdigestChars (msg : List ℕ) : List Char :=
  ((digestBytes msg).map byteToHex).flatten

/-- UTF-8 encoding of one Unicode code point (as `str.encode()` performs
per character; `Char` excludes surrogates). -/
def utf8Bytes (c : ℕ) : List ℕ :=
  if c < 0x80 then [c]
  else if c < 0x800 then [0xc0 ||| (c >>> 6), 0x80 ||| (c &&& 0x3f)]
  else if c < 0x10000 then
    [0xe0 ||| (c >>> 12), 0x80 ||| ((c >>> 6) &&& 0x3f), 0x80 ||| (c &&& 0x3f)]
  else
    [0xf0 ||| (c >>> 18), 0x80 ||| ((c >>> 12) &&& 0x3f),
     0x80 ||| ((c >>> 6) &&& 0x3f), 0x80 ||| (c &&& 0x3f)]

/-- `str.encode()`: the UTF-8 bytes of a string. -/
def encode (s : String) : List ℕ :=
  (s.data.map (fun c => utf8Bytes c.toNat)).flatten

end MD5

/-- The canonical parameter string of `DatabaseHandler.generate_analysis_id`
(`database.py` line 130): `f"{bbox}_{start_date}_{end_date}_{selection_mode}"`.
`bbox` enters in its Python `str()` rendering, so it is taken here as a
string like the other three fields. -/
def params_str (bbox start_date end_date selection_mode : String) : String :=
  bbox ++ "_" ++ start_date ++ "_" ++ end_date ++ "_" ++ selection_mode

/-- `DatabaseHandler.generate_analysis_id` (`database.py` lines 115-132):
`"ndvi_" + md5(params_str.encode()).hexdigest()[:12]`. -/
def generate_analysis_id (bbox start_date end_date selection_mode : String) : String :=
  "ndvi_" ++ String.mk
    ((MD5.hexdigestChars (MD5.encode
      (params_str bbox start_date end_date selection_mode))).take 12)

theorem toBytesLE_length (n x : ℕ) : (MD5.toBytesLE n x).length = n := by
  induction n generalizing x with
  | zero => rfl
  | succ n ih => simp [MD5.toBytesLE, ih]

theorem digestBytes_length (msg : List ℕ) : (MD5.digestBytes msg).length = 16 := by
  simp [MD5.digestBytes, toBytesLE_length]

theorem flatten_byteToHex_length (bs : List ℕ) :
    ((bs.map MD5.byteToHex).flatten).length = 2 * bs.length := by
  induction bs with
  | nil => rfl
  | cons b bs ih =>
    simp only [List.map_cons, List.flatten_cons, List.length_append, ih,
      List.length_cons, MD5.byteToHex, List.length_cons, List.length_nil]
    ring

theorem hexdigestChars_length (msg : List ℕ) :
    (MD5.hexdigestChars msg).length = 32 := by
  show ((MD5.digestBytes msg).map MD5.byteToHex).flatten.length = 32
  rw [flatten_byteToHex_length, digestBytes_length]

theorem strData_append (s t : String) : (s ++ t).data = s.data ++ t.data := rfl

theorem str_middle_cancel {a b : List Char} {x y : List Char}
    (h : a ++ (x ++ b) = a ++ (y ++ b)) : x = y :=
  List.append_cancel_right (List.append_cancel_left h)

/-- C2: `generate_analysis_id` is a pure function of the request tuple —
in this embedding it takes nothing but the four request fields, so
identical arguments always give the identical identifier; the identifier
is `"ndvi_"` followed by exactly twelve hex characters of the MD5 digest
(length 17, fixed namespace-tag prefix); and varying any single one of the
four fields while the other three are fixed changes the canonical string
that is hashed. -/
theorem generate_analysis_id_pure_and_format
    (b s e m b' s' e' m' : String) :
    generate_analysis_id b s e m = generate_analysis_id b s e m ∧
    (generate_analysis_id b s e m).length = 17 ∧
    (∃ rest, generate_analysis_id b s e m = "ndvi_" ++ rest ∧ rest.length = 12) ∧
    (params_str b s e m = params_str b' s e m → b = b') ∧
    (params_str b s e m = params_str b s' e m → s = s') ∧
    (params_str b s e m = params_str b s e' m → e = e') ∧
    (params_str b s e m = params_str b s e m' → m = m') := by
  have hdlen : ∀ msg : List ℕ, ((MD5.hexdigestChars msg).take 12).length = 12 := by
    intro msg
    simp [List.length_take, hexdigestChars_length]
  refine ⟨rfl, ?_, ?_, ?_, ?_, ?_, ?_⟩
  · show (("ndvi_" : String) ++ _).length = 17
    rw [String.length_append]
    have : (String.mk ((MD5.hexdigestChars (MD5.encode (params_str b s e m))).take 12)).length
        = 12 := by
      show ((MD5.hexdigestChars (MD5.encode (params_str b s e m))).take 12).length = 12
      exact hdlen _
    rw [this]
    rfl
  · exact ⟨String.mk ((MD5.hexdigestChars (MD5.encode (params_str b s e m))).take 12),
      rfl, hdlen _⟩
  · intro h
    have h' : b.data ++ (("_" ++ s ++ "_" ++ e ++ "_" ++ m).data) =
        b'.data ++ (("_" ++ s ++ "_" ++ e ++ "_" ++ m).data) := by
      have := congrArg String.data h
      simpa [params_str, strData_append, List.append_assoc] using this
    exact String.ext (List.append_cancel_right h')
  · intro h
    have h' : (b ++ "_").data ++ (s.data ++ ("_" ++ e ++ "_" ++ m).data) =
        (b ++ "_").data ++ (s'.data ++ ("_" ++ e ++ "_" ++ m).data) := by
      have := congrArg String.data h
      simpa [params_str, strData_append, List.append_assoc] using this
    exact String.ext (str_middle_cancel h')
  · intro h
    have h' : (b ++ "_" ++ s ++ "_").data ++ (e.data ++ ("_" ++ m).data) =
        (b ++ "_" ++ s ++ "_").data ++ (e'.data ++ ("_" ++ m).data) := by
      have := congrArg String.data h
      simpa [params_str, strData_append, List.append_assoc] using this
    exact String.ext (str_middle_cancel h')
  · intro h
    have h' : (b ++ "_" ++ s ++ "_" ++ e ++ "_").data ++ m.data =
        (b ++ "_" ++ s ++ "_" ++ e ++ "_").data ++ m'.data := by
      have := congrArg String.data h
      simpa [params_str, strData_append, List.append_assoc] using this
    exact String.ext (List.append_cancel_left h')

/-- C2 witness: the identifier computed for a concrete request, checked
against the format clauses, and the per-field hypotheses discharged on
concrete distinct strings. -/
theorem generate_analysis_id_pure_and_format_witness :
    (generate_analysis_id "[1.0, 2.0, 3.0, 4.0]" "2020-01-01" "2021-01-01" "smart").length = 17 ∧
    generate_analysis_id "[1.0, 2.0, 3.0, 4.0]" "2020-01-01" "2021-01-01" "smart" =
      "ndvi_3ca42a87b347" ∧
    (params_str "b" "s" "e" "m" = params_str "b" "s2" "e" "m" → "s" = "s2") :=
  ⟨(generate_analysis_id_pure_and_format "[1.0, 2.0, 3.0, 4.0]" "2020-01-01" "2021-01-01"
      "smart" "b" "s" "e" "m").2.1,
   by decide,
   (generate_analysis_id_pure_and_format "b" "s" "e" "m" "b" "s2" "e" "m").2.2.2.2.1⟩

/-! ## `analysis.py` — image-pair selection

A scene record carries what `find_best_image_pair` reads off a STAC item:
its id, its capture `datetime` (modelled at day precision as the absolute
day number plus calendar month and year, the three projections the code
uses), and the optional `eo:cloud_cover` property. -/

/-- The capture timestamp of a scene, at day precision: `absDay` is the
absolute day number (orders scenes and yields day differences), `month`
and `year` are its calendar components. -/
structure PyDate where
  absDay : ℤ
  month : ℤ
  year : ℤ
deriving DecidableEq, Inhabited, Repr

/-- A catalog scene record as consumed by the selector. -/
structure Item where
  id : String
  captured : PyDate
  cloud : Option ℚ
deriving DecidableEq, Inhabited, Repr

/-- The structured rationale `selection_info` built by
`find_best_image_pair`. -/
structure SelectionInfo where
  mode : String
  total_images : ℕ
  good_quality_images : ℕ
  reason : String
  date_deviations : List ℤ
deriving DecidableEq, Repr

/-- The cloud-cover filter of `find_best_image_pair` (`analysis.py` lines
38-39): keep items with `properties.get('eo:cloud_cover', 100) <=
max_cloud_cover`. -/
def goodFilter (items : List Item) (max_cloud_cover : ℚ) : List Item :=
  items.filter fun it => decide (it.cloud.getD 100 ≤ max_cloud_cover)

/-- Chronological order on items (`good_items.sort(key=lambda x:
x.datetime)`, `analysis.py` line 46). -/
def byDay (a b : Item) : Prop :=
  a.captured.absDay ≤ b.captured.absDay

instance : DecidableRel byDay := fun _ _ => Int.decLe _ _

instance : IsTotal Item byDay := ⟨fun _ _ => Int.le_total _ _⟩

instance : IsTrans Item byDay := ⟨fun _ _ _ => Int.le_trans⟩

instance : IsRefl Item byDay := ⟨fun _ => Int.le_refl _⟩

/-- Python's `min(l, key=key)`: the first element of `l` attaining the
minimal key (defined via the running-minimum fold `min` performs; `l`
nonempty at every use site). -/
def pyMinBy (key : Item → ℤ) (l : List Item) : Item :=
  l.tail.foldl (fun best y => if key y < key best then y else best) (l.headD default)

/-- Python's `l[0]` (`l` nonempty at every use site). -/
def pyHead (l : List Item) : Item :=
  l.headD default

/-- Python's `l[-1]` (`l` nonempty at every use site). -/
def pyLast (l : List Item) : Item :=
  l.getLastD default

/-- `find_best_image_pair` (`analysis.py` lines 14-124), after the
`search_items` call: filters by cloud cover, fails below two candidates,
sorts chronologically and dispatches on the selection mode exactly as the
code does (`exact`, `quality`, anything else → the smart default).
Returns `(early_image, late_image, selection_info)` or the raised
exception's message. -/
def find_best_image_pair (all_items : List Item) (start_dt end_dt : PyDate)
    (max_cloud_cover : ℚ) (selection_mode : String)
    (max_date_deviation_days : ℤ) : Except String (Item × Item × SelectionInfo) :=
  let good_items := goodFilter all_items max_cloud_cover
  if good_items.length < 2 then
    .error "Not enough good quality images found. Try increasing max_cloud_cover or expanding date range."
  else
    let gs := good_items.insertionSort byDay
    let base : SelectionInfo :=
      { mode := selection_mode, total_images := all_items.length,
        good_quality_images := good_items.length, reason := "", date_deviations := [] }
    if selection_mode = "exact" then
      let early_image := pyMinBy (fun x => |x.captured.absDay - start_dt.absDay|) gs
      let late_image := pyMinBy (fun x => |x.captured.absDay - end_dt.absDay|) gs
      let early_deviation := |early_image.captured.absDay - start_dt.absDay|
      let late_deviation := |late_image.captured.absDay - end_dt.absDay|
      if early_deviation > max_date_deviation_days ∨
          late_deviation > max_date_deviation_days then
        .error ("No images found within " ++ toString max_date_deviation_days ++
          " days of requested dates. Closest images are " ++ toString early_deviation ++
          " and " ++ toString late_deviation ++ " days away.")
      else
        .ok (early_image, late_image,
          { base with
              reason := "Closest images to requested dates (+-" ++
                toString early_deviation ++ "/" ++ toString late_deviation ++ " days)",
              date_deviations := [early_deviation, late_deviation] })
    else if selection_mode = "quality" then
      .ok (pyHead gs, pyLast gs,
        { base with
            reason := "Best quality images selected (lowest cloud cover)",
            date_deviations := [0, 0] })
    else
      let time_span_days := end_dt.absDay - start_dt.absDay
      if time_span_days > 300 then
        let target_month := start_dt.month
        let early_candidates := gs.filter fun it =>
          decide (|it.captured.month - target_month| ≤ 1)
        let late_candidates := gs.filter fun it =>
          decide (|it.captured.month - target_month| ≤ 1 ∧
            it.captured.year > start_dt.year)
        if early_candidates ≠ [] ∧ late_candidates ≠ [] then
          .ok (pyHead early_candidates, pyLast late_candidates,
            { base with
                reason := "Seasonal matching applied (target month: " ++
                  toString target_month ++ ")",
                date_deviations := [0, 0] })
        else
          .ok (pyHead gs, pyLast gs,
            { base with
                reason := "Fallback to first and last good quality images",
                date_deviations := [0, 0] })
      else
        .ok (pyHead gs, pyLast gs,
          { base with
              reason := "Short time period - using first and last good quality images",
              date_deviations := [0, 0] })

/-! Helper lemmas about the running-minimum fold, sorted heads/lasts and
the chronological sort. -/

theorem foldl_runMin_le (key : Item → ℤ) :
    ∀ (xs : List Item) (acc : Item),
      key (xs.foldl (fun best y => if key y < key best then y else best) acc) ≤ key acc ∧
      ∀ x ∈ xs,
        key (xs.foldl (fun best y => if key y < key best then y else best) acc) ≤ key x := by
  intro xs
  induction xs with
  | nil => intro acc; exact ⟨le_refl _, by simp⟩
  | cons z zs ih =>
    intro acc
    simp only [List.foldl_cons, List.mem_cons]
    by_cases h : key z < key acc
    · rw [if_pos h]
      refine ⟨le_trans (ih z).1 (le_of_lt h), ?_⟩
      rintro x (rfl | hx)
      · exact (ih x).1
      · exact (ih z).2 x hx
    · rw [if_neg h]
      refine ⟨(ih acc).1, ?_⟩
      rintro x (rfl | hx)
      · exact le_trans (ih acc).1 (le_of_not_lt h)
      · exact (ih acc).2 x hx

theorem foldl_runMin_mem (key : Item → ℤ) :
    ∀ (xs : List Item) (acc : Item),
      xs.foldl (fun best y => if key y < key best then y else best) acc = acc ∨
      xs.foldl (fun best y => if key y < key best then y else best) acc ∈ xs := by
  intro xs
  induction xs with
  | nil => intro acc; exact Or.inl rfl
  | cons z zs ih =>
    intro acc
    simp only [List.foldl_cons, List.mem_cons]
    by_cases h : key z < key acc
    · rw [if_pos h]
      rcases ih z with h' | h'
      · exact Or.inr (Or.inl h')
      · exact Or.inr (Or.inr h')
    · rw [if_neg h]
      rcases ih acc with h' | h'
      · exact Or.inl h'
      · exact Or.inr (Or.inr h')

theorem pyMinBy_spec (key : Item → ℤ) {l : List Item} (h : l ≠ []) :
    pyMinBy key l ∈ l ∧ ∀ x ∈ l, key (pyMinBy key l) ≤ key x := by
  obtain ⟨a, t, rfl⟩ := List.exists_cons_of_ne_nil h
  unfold pyMinBy
  simp only [List.tail_cons, List.headD_cons]
  constructor
  · rcases foldl_runMin_mem key t a with h' | h'
    · rw [h']
      exact List.mem_cons_self a t
    · exact List.mem_cons_of_mem a h'
  · intro x hx
    rcases List.mem_cons.mp hx with rfl | hx
    · exact (foldl_runMin_le key t x).1
    · exact (foldl_runMin_le key t a).2 x hx

theorem getLastD_mem : ∀ (l : List Item) (d : Item), l ≠ [] → l.getLastD d ∈ l := by
  intro l
  induction l with
  | nil => simp
  | cons a t ih =>
    intro d _
    rw [List.getLastD_cons]
    by_cases ht : t = []
    · subst ht; simp [List.getLastD]
    · exact List.mem_cons_of_mem a (ih a ht)

theorem sorted_rel_getLastD :
    ∀ (l : List Item) (d : Item), l.Sorted byDay → ∀ y ∈ l, byDay y (l.getLastD d) := by
  intro l
  induction l with
  | nil => simp
  | cons a t ih =>
    intro d hs y hy
    rw [List.getLastD_cons]
    by_cases ht : t = []
    · subst ht
      simp only [List.mem_singleton] at hy
      subst hy
      simp only [List.getLastD]
      exact Int.le_refl _
    · rcases List.mem_cons.mp hy with rfl | hyt
      · exact List.rel_of_sorted_cons hs _ (getLastD_mem t y ht)
      · exact ih a hs.of_cons y hyt

theorem sorted_pyHead_min {l : List Item} (hs : l.Sorted byDay) (hne : l ≠ []) :
    pyHead l ∈ l ∧ ∀ y ∈ l, byDay (pyHead l) y := by
  obtain ⟨a, t, rfl⟩ := List.exists_cons_of_ne_nil hne
  unfold pyHead
  simp only [List.headD_cons]
  refine ⟨List.mem_cons_self a t, ?_⟩
  intro y hy
  rcases List.mem_cons.mp hy with rfl | hyt
  · exact Int.le_refl _
  · exact List.rel_of_sorted_cons hs y hyt

theorem sorted_pyLast_max {l : List Item} (hs : l.Sorted byDay) (hne : l ≠ []) :
    pyLast l ∈ l ∧ ∀ y ∈ l, byDay y (pyLast l) :=
  ⟨getLastD_mem l default hne, sorted_rel_getLastD l default hs⟩

theorem mem_sortByDay (l : List Item) (x : Item) :
    x ∈ l.insertionSort byDay ↔ x ∈ l :=
  (List.perm_insertionSort byDay l).mem_iff

theorem sortByDay_sorted (l : List Item) : (l.insertionSort byDay).Sorted byDay :=
  List.sorted_insertionSort byDay l

theorem sortByDay_length (l : List Item) : (l.insertionSort byDay).length = l.length :=
  (List.perm_insertionSort byDay l).length_eq

theorem sortByDay_ne_nil {l : List Item} (h : l ≠ []) : l.insertionSort byDay ≠ [] := by
  intro hc
  apply h
  have := sortByDay_length l
  rw [hc] at this
  exact List.length_eq_zero.mp this.symm

/-- C5: in exact mode with at least two filtered candidates, a returned
"early" scene is a filtered candidate minimizing the absolute day-distance
to `start_date` and "late" independently one minimizing the distance to
`end_date`, both within tolerance and recorded in the rationale; the call
fails exactly when either of those minimum distances exceeds
`max_date_deviation_days` (i.e. when every candidate is farther than the
tolerance from the respective endpoint), and the error message reports
both achieved minimum distances. -/
theorem exact_mode_spec (all_items : List Item) (start_dt end_dt : PyDate)
    (maxcc : ℚ) (maxdev : ℤ)
    (h2 : 2 ≤ (goodFilter all_items maxcc).length) :
    (∀ e l info,
      find_best_image_pair all_items start_dt end_dt maxcc "exact" maxdev =
          .ok (e, l, info) →
        (e ∈ goodFilter all_items maxcc ∧
          ∀ x ∈ goodFilter all_items maxcc,
            |e.captured.absDay - start_dt.absDay| ≤ |x.captured.absDay - start_dt.absDay|) ∧
        (l ∈ goodFilter all_items maxcc ∧
          ∀ x ∈ goodFilter all_items maxcc,
            |l.captured.absDay - end_dt.absDay| ≤ |x.captured.absDay - end_dt.absDay|) ∧
        |e.captured.absDay - start_dt.absDay| ≤ maxdev ∧
        |l.captured.absDay - end_dt.absDay| ≤ maxdev ∧
        info.date_deviations =
          [|e.captured.absDay - start_dt.absDay|, |l.captured.absDay - end_dt.absDay|]) ∧
    ((∃ msg, find_best_image_pair all_items start_dt end_dt maxcc "exact" maxdev =
        .error msg) ↔
      (∀ x ∈ goodFilter all_items maxcc, maxdev < |x.captured.absDay - start_dt.absDay|) ∨
      (∀ x ∈ goodFilter all_items maxcc, maxdev < |x.captured.absDay - end_dt.absDay|)) ∧
    (∀ msg, find_best_image_pair all_items start_dt end_dt maxcc "exact" maxdev =
        .error msg →
      ∃ d1 d2 : ℤ,
        (∃ e ∈ goodFilter all_items maxcc, d1 = |e.captured.absDay - start_dt.absDay| ∧
          ∀ x ∈ goodFilter all_items maxcc, d1 ≤ |x.captured.absDay - start_dt.absDay|) ∧
        (∃ l ∈ goodFilter all_items maxcc, d2 = |l.captured.absDay - end_dt.absDay| ∧
          ∀ x ∈ goodFilter all_items maxcc, d2 ≤ |x.captured.absDay - end_dt.absDay|) ∧
        msg = "No images found within " ++ toString maxdev ++
          " days of requested dates. Closest images are " ++ toString d1 ++
          " and " ++ toString d2 ++ " days away.") := by
  have hgne : goodFilter all_items maxcc ≠ [] := by
    intro hc
    rw [hc] at h2
    simp at h2
  have hgsne : (goodFilter all_items maxcc).insertionSort byDay ≠ [] :=
    sortByDay_ne_nil hgne
  have hespec := pyMinBy_spec (fun x => |x.captured.absDay - start_dt.absDay|) hgsne
  have hlspec := pyMinBy_spec (fun x => |x.captured.absDay - end_dt.absDay|) hgsne
  set gs := (goodFilter all_items maxcc).insertionSort byDay with hgs
  set e := pyMinBy (fun x => |x.captured.absDay - start_dt.absDay|) gs with he
  set l := pyMinBy (fun x => |x.captured.absDay - end_dt.absDay|) gs with hl
  have hemem : e ∈ goodFilter all_items maxcc := (mem_sortByDay _ _).mp hespec.1
  have hlmem : l ∈ goodFilter all_items maxcc := (mem_sortByDay _ _).mp hlspec.1
  have hemin : ∀ x ∈ goodFilter all_items maxcc,
      |e.captured.absDay - start_dt.absDay| ≤ |x.captured.absDay - start_dt.absDay| :=
    fun x hx => hespec.2 x ((mem_sortByDay _ _).mpr hx)
  have hlmin : ∀ x ∈ goodFilter all_items maxcc,
      |l.captured.absDay - end_dt.absDay| ≤ |x.captured.absDay - end_dt.absDay| :=
    fun x hx => hlspec.2 x ((mem_sortByDay _ _).mpr hx)
  have hred : find_best_image_pair all_items start_dt end_dt maxcc "exact" maxdev =
      if |e.captured.absDay - start_dt.absDay| > maxdev ∨
          |l.captured.absDay - end_dt.absDay| > maxdev then
        .error ("No images found within " ++ toString maxdev ++
          " days of requested dates. Closest images are " ++
          toString |e.captured.absDay - start_dt.absDay| ++
          " and " ++ toString |l.captured.absDay - end_dt.absDay| ++ " days away.")
      else
        .ok (e, l,
          { mode := "exact", total_images := all_items.length,
            good_quality_images := (goodFilter all_items maxcc).length,
            reason := "Closest images to requested dates (+-" ++
              toString |e.captured.absDay - start_dt.absDay| ++ "/" ++
              toString |l.captured.absDay - end_dt.absDay| ++ " days)",
            date_deviations := [|e.captured.absDay - start_dt.absDay|,
              |l.captured.absDay - end_dt.absDay|] }) := by
    unfold find_best_image_pair
    rw [if_neg (not_lt.mpr h2), if_pos rfl]
  by_cases hc : |e.captured.absDay - start_dt.absDay| > maxdev ∨
      |l.captured.absDay - end_dt.absDay| > maxdev
  · rw [if_pos hc] at hred
    refine ⟨?_, ?_, ?_⟩
    · intro e' l' info' hok
      rw [hred] at hok
      exact absurd hok (by simp)
    · constructor
      · intro _
        rcases hc with hc | hc
        · exact Or.inl fun x hx => lt_of_lt_of_le hc (hemin x hx)
        · exact Or.inr fun x hx => lt_of_lt_of_le hc (hlmin x hx)
      · intro _
        exact ⟨_, hred⟩
    · intro msg hmsg
      rw [hred] at hmsg
      refine ⟨|e.captured.absDay - start_dt.absDay|, |l.captured.absDay - end_dt.absDay|,
        ⟨e, hemem, rfl, hemin⟩, ⟨l, hlmem, rfl, hlmin⟩, ?_⟩
      exact (Except.error.injEq _ _ ▸ hmsg).symm ▸ rfl
  · rw [if_neg hc] at hred
    push_neg at hc
    refine ⟨?_, ?_, ?_⟩
    · intro e' l' info' hok
      rw [hred] at hok
      injection hok with h1
      obtain ⟨rfl, rfl, rfl⟩ : e' = e ∧ l' = l ∧ info' = _ := by
        injection h1 with ha hb
        injection hb with hb hc'
        exact ⟨ha.symm, hb.symm, hc'.symm⟩
      exact ⟨⟨hemem, hemin⟩, ⟨hlmem, hlmin⟩, hc.1, hc.2, rfl⟩
    · constructor
      · intro ⟨msg, hmsg⟩
        rw [hred] at hmsg
        exact absurd hmsg (by simp)
      · intro h
        exfalso
        rcases h with h | h
        · exact absurd hc.1 (not_le.mpr (h e hemem))
        · exact absurd hc.2 (not_le.mpr (h l hlmem))
    · intro msg hmsg
      rw [hred] at hmsg
      exact absurd hmsg (by simp)

/-- C5 witness: the claim's own concrete scenario — scenes on days 0, 10,
40, start day 5, end day 35; tolerance 20 selects day 0 and day 40 at
distance 5 each, tolerance 3 fails with the message reporting both
distances. -/
theorem exact_mode_spec_witness :
    2 ≤ (goodFilter
      [⟨"A", ⟨0, 1, 2020⟩, some 10⟩, ⟨"B", ⟨10, 1, 2020⟩, some 10⟩,
       ⟨"C", ⟨40, 2, 2020⟩, some 10⟩] 20).length ∧
    ((∃ msg, find_best_image_pair
        [⟨"A", ⟨0, 1, 2020⟩, some 10⟩, ⟨"B", ⟨10, 1, 2020⟩, some 10⟩,
         ⟨"C", ⟨40, 2, 2020⟩, some 10⟩]
        ⟨5, 1, 2020⟩ ⟨35, 2, 2020⟩ 20 "exact" 3 = .error msg) ↔
      (∀ x ∈ goodFilter
        [⟨"A", ⟨0, 1, 2020⟩, some 10⟩, ⟨"B", ⟨10, 1, 2020⟩, some 10⟩,
         ⟨"C", ⟨40, 2, 2020⟩, some 10⟩] 20, (3 : ℤ) < |x.captured.absDay - 5|) ∨
      (∀ x ∈ goodFilter
        [⟨"A", ⟨0, 1, 2020⟩, some 10⟩, ⟨"B", ⟨10, 1, 2020⟩, some 10⟩,
         ⟨"C", ⟨40, 2, 2020⟩, some 10⟩] 20, (3 : ℤ) < |x.captured.absDay - 35|)) ∧
    (find_best_image_pair
        [⟨"A", ⟨0, 1, 2020⟩, some 10⟩, ⟨"B", ⟨10, 1, 2020⟩, some 10⟩,
         ⟨"C", ⟨40, 2, 2020⟩, some 10⟩]
        ⟨5, 1, 2020⟩ ⟨35, 2, 2020⟩ 20 "exact" 20).toOption.map
          (fun r => (r.1.id, r.2.1.id, r.2.2.date_deviations)) =
      some ("A", "C", [5, 5]) ∧
    (find_best_image_pair
        [⟨"A", ⟨0, 1, 2020⟩, some 10⟩, ⟨"B", ⟨10, 1, 2020⟩, some 10⟩,
         ⟨"C", ⟨40, 2, 2020⟩, some 10⟩]
        ⟨5, 1, 2020⟩ ⟨35, 2, 2020⟩ 20 "exact" 3 =
      .error "No images found within 3 days of requested dates. Closest images are 5 and 5 days away.") :=
  ⟨by decide,
   (exact_mode_spec
      [⟨"A", ⟨0, 1, 2020⟩, some 10⟩, ⟨"B", ⟨10, 1, 2020⟩, some 10⟩,
       ⟨"C", ⟨40, 2, 2020⟩, some 10⟩]
      ⟨5, 1, 2020⟩ ⟨35, 2, 2020⟩ 20 3 (by decide)).2.1,
   by decide, by rfl⟩

/-- C3: the concrete behavior of quality mode on two filtered scenes —
scene "A" (day 0, cloud 15) and scene "B" (day 10, cloud 5). The code
returns "A" as early (the chronologically first of the date-sorted list,
`analysis.py` line 46 having re-sorted `good_items` by date despite the
comment at line 80), while the lowest-cloud-cover candidate is "B",
which passes the filter with strictly less cloud cover. -/
theorem quality_mode_code_behavior :
    (find_best_image_pair
        [⟨"A", ⟨0, 1, 2020⟩, some 15⟩, ⟨"B", ⟨10, 1, 2020⟩, some 5⟩]
        ⟨0, 1, 2020⟩ ⟨10, 1, 2020⟩ 20 "quality" 30).toOption.map
          (fun r => (r.1.id, r.2.1.id, r.2.2.reason)) =
      some ("A", "B", "Best quality images selected (lowest cloud cover)") ∧
    (⟨"B", ⟨10, 1, 2020⟩, some 5⟩ : Item) ∈
      goodFilter [⟨"A", ⟨0, 1, 2020⟩, some 15⟩, ⟨"B", ⟨10, 1, 2020⟩, some 5⟩] 20 ∧
    ((⟨"B", ⟨10, 1, 2020⟩, some 5⟩ : Item).cloud.getD 100 <
      (⟨"A", ⟨0, 1, 2020⟩, some 15⟩ : Item).cloud.getD 100) := by
  decide

/-- C6: smart mode. With a span over 300 days and both month-restricted
subsets inhabited, "early" is the chronologically first filtered candidate
whose month is within 1 of the start month and "late" the chronologically
last such candidate with capture year strictly greater than the start
year; if either restricted subset is empty the selector falls back to the
chronologically first and last of the full filtered set; a span of at most
300 days always uses first/last; and the recorded rationale names the
branch that fired (three distinct reason strings). -/
theorem smart_mode_spec (all_items : List Item) (start_dt end_dt : PyDate)
    (maxcc : ℚ) (maxdev : ℤ)
    (h2 : 2 ≤ (goodFilter all_items maxcc).length) :
    (end_dt.absDay - start_dt.absDay > 300 →
      (∃ x ∈ goodFilter all_items maxcc, |x.captured.month - start_dt.month| ≤ 1) →
      (∃ x ∈ goodFilter all_items maxcc, |x.captured.month - start_dt.month| ≤ 1 ∧
        x.captured.year > start_dt.year) →
      ∃ e l info,
        find_best_image_pair all_items start_dt end_dt maxcc "smart" maxdev =
          .ok (e, l, info) ∧
        info.reason = "Seasonal matching applied (target month: " ++
          toString start_dt.month ++ ")" ∧
        (e ∈ goodFilter all_items maxcc ∧ |e.captured.month - start_dt.month| ≤ 1 ∧
          ∀ x ∈ goodFilter all_items maxcc, |x.captured.month - start_dt.month| ≤ 1 →
            e.captured.absDay ≤ x.captured.absDay) ∧
        (l ∈ goodFilter all_items maxcc ∧ |l.captured.month - start_dt.month| ≤ 1 ∧
          l.captured.year > start_dt.year ∧
          ∀ x ∈ goodFilter all_items maxcc,
            |x.captured.month - start_dt.month| ≤ 1 → x.captured.year > start_dt.year →
              x.captured.absDay ≤ l.captured.absDay)) ∧
    (end_dt.absDay - start_dt.absDay > 300 →
      (¬(∃ x ∈ goodFilter all_items maxcc, |x.captured.month - start_dt.month| ≤ 1) ∨
       ¬(∃ x ∈ goodFilter all_items maxcc, |x.captured.month - start_dt.month| ≤ 1 ∧
          x.captured.year > start_dt.year)) →
      ∃ e l info,
        find_best_image_pair all_items start_dt end_dt maxcc "smart" maxdev =
          .ok (e, l, info) ∧
        info.reason = "Fallback to first and last good quality images" ∧
        (e ∈ goodFilter all_items maxcc ∧
          ∀ x ∈ goodFilter all_items maxcc, e.captured.absDay ≤ x.captured.absDay) ∧
        (l ∈ goodFilter all_items maxcc ∧
          ∀ x ∈ goodFilter all_items maxcc, x.captured.absDay ≤ l.captured.absDay)) ∧
    (end_dt.absDay - start_dt.absDay ≤ 300 →
      ∃ e l info,
        find_best_image_pair all_items start_dt end_dt maxcc "smart" maxdev =
          .ok (e, l, info) ∧
        info.reason = "Short time period - using first and last good quality images" ∧
        (e ∈ goodFilter all_items maxcc ∧
          ∀ x ∈ goodFilter all_items maxcc, e.captured.absDay ≤ x.captured.absDay) ∧
        (l ∈ goodFilter all_items maxcc ∧
          ∀ x ∈ goodFilter all_items maxcc, x.captured.absDay ≤ l.captured.absDay)) := by
  have hgne : goodFilter all_items maxcc ≠ [] := by
    intro hc
    rw [hc] at h2
    simp at h2
  set good := goodFilter all_items maxcc with hgooddef
  set gs := good.insertionSort byDay with hgs
  have hgsne : gs ≠ [] := sortByDay_ne_nil hgne
  have hsor : gs.Sorted byDay := sortByDay_sorted good
  have hmem : ∀ x, x ∈ gs ↔ x ∈ good := fun x => mem_sortByDay good x
  have hheadspec := sorted_pyHead_min hsor hgsne
  have hlastspec := sorted_pyLast_max hsor hgsne
  have hfirstlast :
      (pyHead gs ∈ good ∧ ∀ x ∈ good, (pyHead gs).captured.absDay ≤ x.captured.absDay) ∧
      (pyLast gs ∈ good ∧ ∀ x ∈ good, x.captured.absDay ≤ (pyLast gs).captured.absDay) := by
    refine ⟨⟨(hmem _).mp hheadspec.1, ?_⟩, ⟨(hmem _).mp hlastspec.1, ?_⟩⟩
    · exact fun x hx => hheadspec.2 x ((hmem x).mpr hx)
    · exact fun x hx => hlastspec.2 x ((hmem x).mpr hx)
  have hred : find_best_image_pair all_items start_dt end_dt maxcc "smart" maxdev =
      (if end_dt.absDay - start_dt.absDay > 300 then
        (if (gs.filter fun it => decide (|it.captured.month - start_dt.month| ≤ 1)) ≠ [] ∧
            (gs.filter fun it => decide (|it.captured.month - start_dt.month| ≤ 1 ∧
              it.captured.year > start_dt.year)) ≠ [] then
          .ok (pyHead (gs.filter fun it => decide (|it.captured.month - start_dt.month| ≤ 1)),
            pyLast (gs.filter fun it => decide (|it.captured.month - start_dt.month| ≤ 1 ∧
              it.captured.year > start_dt.year)),
            { mode := "smart", total_images := all_items.length,
              good_quality_images := good.length,
              reason := "Seasonal matching applied (target month: " ++
                toString start_dt.month ++ ")",
              date_deviations := [0, 0] })
        else
          .ok (pyHead gs, pyLast gs,
            { mode := "smart", total_images := all_items.length,
              good_quality_images := good.length,
              reason := "Fallback to first and last good quality images",
              date_deviations := [0, 0] }))
      else
        .ok (pyHead gs, pyLast gs,
          { mode := "smart", total_images := all_items.length,
            good_quality_images := good.length,
            reason := "Short time period - using first and last good quality images",
            date_deviations := [0, 0] })) := by
    unfold find_best_image_pair
    rw [if_neg (not_lt.mpr h2), if_neg (by decide : ¬("smart" = "exact")),
      if_neg (by decide : ¬("smart" = "quality"))]
  refine ⟨?_, ?_, ?_⟩
  · intro hspan ⟨xe, hxe, hxem⟩ ⟨xl, hxl, hxlm, hxly⟩
    have hne1 : (gs.filter fun it => decide (|it.captured.month - start_dt.month| ≤ 1)) ≠ [] := by
      apply List.ne_nil_of_mem (a := xe)
      rw [List.mem_filter]
      exact ⟨(hmem xe).mpr hxe, by simpa using hxem⟩
    have hne2 : (gs.filter fun it => decide (|it.captured.month - start_dt.month| ≤ 1 ∧
        it.captured.year > start_dt.year)) ≠ [] := by
      apply List.ne_nil_of_mem (a := xl)
      rw [List.mem_filter]
      refine ⟨(hmem xl).mpr hxl, ?_⟩
      simp only [decide_eq_true_eq]
      exact ⟨hxlm, hxly⟩
    rw [if_pos hspan, if_pos ⟨hne1, hne2⟩] at hred
    have hecSorted : (gs.filter fun it =>
        decide (|it.captured.month - start_dt.month| ≤ 1)).Sorted byDay :=
      List.Pairwise.sublist (List.filter_sublist gs) hsor
    have hlcSorted : (gs.filter fun it =>
        decide (|it.captured.month - start_dt.month| ≤ 1 ∧
          it.captured.year > start_dt.year)).Sorted byDay :=
      List.Pairwise.sublist (List.filter_sublist gs) hsor
    have hhead := sorted_pyHead_min hecSorted hne1
    have hlast := sorted_pyLast_max hlcSorted hne2
    refine ⟨_, _, _, hred, rfl, ?_, ?_⟩
    · obtain ⟨hin, hmin⟩ := hhead
      rw [List.mem_filter] at hin
      obtain ⟨hin1, hin2⟩ := hin
      simp only [decide_eq_true_eq] at hin2
      refine ⟨(hmem _).mp hin1, hin2, ?_⟩
      intro x hx hxm
      apply hmin
      rw [List.mem_filter]
      exact ⟨(hmem x).mpr hx, by simpa using hxm⟩
    · obtain ⟨hin, hmax⟩ := hlast
      rw [List.mem_filter] at hin
      obtain ⟨hin1, hin2⟩ := hin
      simp only [decide_eq_true_eq] at hin2
      refine ⟨(hmem _).mp hin1, hin2.1, hin2.2, ?_⟩
      intro x hx hxm hxy
      apply hmax
      rw [List.mem_filter]
      refine ⟨(hmem x).mpr hx, ?_⟩
      simp only [decide_eq_true_eq]
      exact ⟨hxm, hxy⟩
  · intro hspan hempty
    have hcond : ¬((gs.filter fun it =>
        decide (|it.captured.month - start_dt.month| ≤ 1)) ≠ [] ∧
        (gs.filter fun it => decide (|it.captured.month - start_dt.month| ≤ 1 ∧
          it.captured.year > start_dt.year)) ≠ []) := by
      rintro ⟨hne1, hne2⟩
      rcases hempty with hemp | hemp
      · obtain ⟨x, hx⟩ := List.exists_mem_of_ne_nil _ hne1
        rw [List.mem_filter] at hx
        exact hemp ⟨x, (hmem x).mp hx.1, by simpa using hx.2⟩
      · obtain ⟨x, hx⟩ := List.exists_mem_of_ne_nil _ hne2
        rw [List.mem_filter] at hx
        obtain ⟨hx1, hx2⟩ := hx
        simp only [decide_eq_true_eq] at hx2
        exact hemp ⟨x, (hmem x).mp hx1, hx2.1, hx2.2⟩
    rw [if_pos hspan, if_neg hcond] at hred
    exact ⟨_, _, _, hred, rfl, hfirstlast.1, hfirstlast.2⟩
  · intro hspan
    rw [if_neg (not_lt.mpr hspan)] at hred
    exact ⟨_, _, _, hred, rfl, hfirstlast.1, hfirstlast.2⟩

/-- C6 witness: a long span (400 days) with a seasonal match — scenes in
month 1 of 2020 and month 2 of 2021 — resolves through the seasonal
branch; a short span resolves through the short-span branch. -/
theorem smart_mode_spec_witness :
    2 ≤ (goodFilter
      [⟨"A", ⟨0, 1, 2020⟩, some 10⟩, ⟨"B", ⟨200, 7, 2020⟩, some 10⟩,
       ⟨"C", ⟨400, 2, 2021⟩, some 10⟩] 20).length ∧
    (∃ e l info,
      find_best_image_pair
        [⟨"A", ⟨0, 1, 2020⟩, some 10⟩, ⟨"B", ⟨200, 7, 2020⟩, some 10⟩,
         ⟨"C", ⟨400, 2, 2021⟩, some 10⟩]
        ⟨0, 1, 2020⟩ ⟨400, 2, 2021⟩ 20 "smart" 30 = .ok (e, l, info) ∧
      info.reason = "Seasonal matching applied (target month: " ++ toString (1 : ℤ) ++ ")" ∧
      (e ∈ goodFilter
        [⟨"A", ⟨0, 1, 2020⟩, some 10⟩, ⟨"B", ⟨200, 7, 2020⟩, some 10⟩,
         ⟨"C", ⟨400, 2, 2021⟩, some 10⟩] 20 ∧ |e.captured.month - (1 : ℤ)| ≤ 1 ∧
        ∀ x ∈ goodFilter
          [⟨"A", ⟨0, 1, 2020⟩, some 10⟩, ⟨"B", ⟨200, 7, 2020⟩, some 10⟩,
           ⟨"C", ⟨400, 2, 2021⟩, some 10⟩] 20, |x.captured.month - (1 : ℤ)| ≤ 1 →
            e.captured.absDay ≤ x.captured.absDay) ∧
      (l ∈ goodFilter
        [⟨"A", ⟨0, 1, 2020⟩, some 10⟩, ⟨"B", ⟨200, 7, 2020⟩, some 10⟩,
         ⟨"C", ⟨400, 2, 2021⟩, some 10⟩] 20 ∧ |l.captured.month - (1 : ℤ)| ≤ 1 ∧
        l.captured.year > 2020 ∧
        ∀ x ∈ goodFilter
          [⟨"A", ⟨0, 1, 2020⟩, some 10⟩, ⟨"B", ⟨200, 7, 2020⟩, some 10⟩,
           ⟨"C", ⟨400, 2, 2021⟩, some 10⟩] 20,
          |x.captured.month - (1 : ℤ)| ≤ 1 → x.captured.year > 2020 →
            x.captured.absDay ≤ l.captured.absDay)) :=
  ⟨by decide,
   (smart_mode_spec
      [⟨"A", ⟨0, 1, 2020⟩, some 10⟩, ⟨"B", ⟨200, 7, 2020⟩, some 10⟩,
       ⟨"C", ⟨400, 2, 2021⟩, some 10⟩]
      ⟨0, 1, 2020⟩ ⟨400, 2, 2021⟩ 20 30 (by decide)).1 (by decide)
      ⟨⟨"A", ⟨0, 1, 2020⟩, some 10⟩, by decide, by decide⟩
      ⟨⟨"C", ⟨400, 2, 2021⟩, some 10⟩, by decide, by decide, by decide⟩⟩

/-! ## `search.py` — catalog query constraint

`search_items` queries the catalog with `{"eo:cloud_cover": {"lt": 20}}`
(`search.py` line 19), so every returned scene carries a cloud cover
strictly below 20; that contract of the external catalog enters the
theorems below as a hypothesis on the selector's input. -/

/-- C9: for scene lists satisfying the catalog query constraint
(`eo:cloud_cover < 20`), the selector's cloud filter has effective
ceiling `min(max_cloud_cover, 20)`: filtering at `max_cloud_cover` equals
filtering at the min, every surviving scene's cloud cover is at most that
min, a ceiling at or above 20 passes every scene through, and any two
ceilings at or above 20 admit exactly the same candidates. -/
theorem cloud_ceiling_min (all_items : List Item) (maxcc : ℚ)
    (hsearch : ∀ it ∈ all_items, it.cloud.getD 100 < 20) :
    goodFilter all_items maxcc = goodFilter all_items (min maxcc 20) ∧
    (∀ it ∈ goodFilter all_items maxcc, it.cloud.getD 100 ≤ min maxcc 20) ∧
    (20 ≤ maxcc → goodFilter all_items maxcc = all_items) ∧
    (∀ m1 m2 : ℚ, 20 ≤ m1 → 20 ≤ m2 →
      goodFilter all_items m1 = goodFilter all_items m2) := by
  have hall : ∀ m : ℚ, 20 ≤ m → goodFilter all_items m = all_items := by
    intro m hm
    apply List.filter_eq_self.mpr
    intro it hit
    exact decide_eq_true (le_trans (le_of_lt (hsearch it hit)) hm)
  refine ⟨?_, ?_, hall maxcc, ?_⟩
  · by_cases h : maxcc ≤ 20
    · rw [min_eq_left h]
    · push_neg at h
      rw [min_eq_right (le_of_lt h), hall maxcc (le_of_lt h), hall 20 (le_refl 20)]
  · intro it hit
    rw [goodFilter, List.mem_filter] at hit
    obtain ⟨hmem, hcc⟩ := hit
    simp only [decide_eq_true_eq] at hcc
    exact le_min hcc (le_of_lt (hsearch it hmem))
  · intro m1 m2 h1 h2
    rw [hall m1 h1, hall m2 h2]

/-- C9 witness: a concrete pair of under-20-cloud scenes; ceilings 25 and
80 admit the same candidates, and every filtered scene stays at or below
`min(25, 20) = 20`. -/
theorem cloud_ceiling_min_witness :
    (∀ it ∈ [(⟨"A", ⟨0, 1, 2020⟩, some 15⟩ : Item), ⟨"B", ⟨10, 1, 2020⟩, some 5⟩],
      it.cloud.getD 100 < 20) ∧
    goodFilter [(⟨"A", ⟨0, 1, 2020⟩, some 15⟩ : Item), ⟨"B", ⟨10, 1, 2020⟩, some 5⟩] 25 =
      goodFilter [(⟨"A", ⟨0, 1, 2020⟩, some 15⟩ : Item), ⟨"B", ⟨10, 1, 2020⟩, some 5⟩] 80 :=
  ⟨by decide,
   (cloud_ceiling_min [⟨"A", ⟨0, 1, 2020⟩, some 15⟩, ⟨"B", ⟨10, 1, 2020⟩, some 5⟩] 25
      (by decide)).2.2.2 25 80 (by norm_num) (by norm_num)⟩

/-! ## `fetch.py` — retry loop with exponential backoff

The attempt loop of `read_band_with_retry` (`fetch.py` lines 91-101), with
the I/O of one `read_band` call abstracted as the attempt-indexed outcome
oracle `io` (`io k` is what attempt number `k` returns or raises).
The loop is driven by the number of remaining iterations of
`range(max_retries)`; it reports the loop outcome (`none` would be a
fall-through with `max_retries = 0`, where Python returns `None`),
the number of attempts made, and the total units slept
(`time.sleep(2 ** attempt)` after each failed non-final attempt). -/

def retryLoop {A E : Type} (io : ℕ → Except E A) :
    ℕ → ℕ → ℕ → Option (Except E A) × ℕ × ℕ
  | 0, attempt, slept => (none, attempt, slept)
  | remaining + 1, attempt, slept =>
    match io attempt with
    | .ok a => (some (.ok a), attempt + 1, slept)
    | .error e =>
      if remaining = 0 then (some (.error e), attempt + 1, slept)
      else retryLoop io remaining (attempt + 1) (slept + 2 ^ attempt)

/-- `read_band_with_retry` (`fetch.py` lines 78-101) as a function of the
attempt oracle and `max_retries`. -/
def read_band_with_retry {A E : Type} (io : ℕ → Except E A) (max_retries : ℕ) :
    Option (Except E A) × ℕ × ℕ :=
  retryLoop io max_retries 0 0

theorem retryLoop_ok {A E : Type} {io : ℕ → Except E A} {a : A}
    (r attempt slept : ℕ) (h : io attempt = .ok a) :
    retryLoop io (r + 1) attempt slept = (some (.ok a), attempt + 1, slept) := by
  simp [retryLoop, h]

theorem retryLoop_err_last {A E : Type} {io : ℕ → Except E A} {e : E}
    (attempt slept : ℕ) (h : io attempt = .error e) :
    retryLoop io 1 attempt slept = (some (.error e), attempt + 1, slept) := by
  simp [retryLoop, h]

theorem retryLoop_err_cont {A E : Type} {io : ℕ → Except E A} {e : E}
    (r attempt slept : ℕ) (h : io attempt = .error e) (hr : r ≠ 0) :
    retryLoop io (r + 1) attempt slept =
      retryLoop io r (attempt + 1) (slept + 2 ^ attempt) := by
  simp [retryLoop, h, hr]

theorem retryLoop_attempts_le {A E : Type} (io : ℕ → Except E A) :
    ∀ (remaining attempt slept : ℕ),
      (retryLoop io remaining attempt slept).2.1 ≤ attempt + remaining := by
  intro remaining
  induction remaining with
  | zero => intro attempt slept; simp [retryLoop]
  | succ r ih =>
    intro attempt slept
    cases hio : io attempt with
    | ok a => rw [retryLoop_ok r attempt slept hio]; simp
    | error e =>
      by_cases hr : r = 0
      · subst hr
        rw [retryLoop_err_last attempt slept hio]
      · rw [retryLoop_err_cont r attempt slept hio hr]
        calc (retryLoop io r (attempt + 1) (slept + 2 ^ attempt)).2.1
            ≤ attempt + 1 + r := ih (attempt + 1) (slept + 2 ^ attempt)
          _ = attempt + (r + 1) := by omega

theorem retryLoop_succeeds {A E : Type} (io : ℕ → Except E A) (a : A) :
    ∀ (k remaining attempt slept : ℕ),
      k < remaining →
      (∀ i < k, ∃ e, io (attempt + i) = .error e) →
      io (attempt + k) = .ok a →
      retryLoop io remaining attempt slept =
        (some (.ok a), attempt + k + 1, slept + (2 ^ (attempt + k) - 2 ^ attempt)) := by
  intro k
  induction k with
  | zero =>
    intro remaining attempt slept hk _ hok
    obtain ⟨r, rfl⟩ := Nat.exists_eq_succ_of_ne_zero (by omega : remaining ≠ 0)
    rw [show attempt + 0 = attempt from rfl] at hok
    rw [retryLoop_ok r attempt slept hok]
    simp
  | succ k ih =>
    intro remaining attempt slept hk herr hok
    obtain ⟨r, rfl⟩ := Nat.exists_eq_succ_of_ne_zero (by omega : remaining ≠ 0)
    obtain ⟨e0, he0⟩ := herr 0 (Nat.succ_pos k)
    rw [show attempt + 0 = attempt from rfl] at he0
    have hrne : r ≠ 0 := by omega
    rw [retryLoop_err_cont r attempt slept he0 hrne]
    have hrec := ih r (attempt + 1) (slept + 2 ^ attempt) (by omega)
      (fun i hi => by
        have := herr (i + 1) (by omega)
        rwa [show attempt + (i + 1) = attempt + 1 + i by omega] at this)
      (by rwa [show attempt + 1 + k = attempt + (k + 1) by omega])
    rw [hrec]
    have h1 : 2 ^ (attempt + 1) = 2 * 2 ^ attempt := by
      rw [pow_succ]; omega
    have h2 : 2 ^ (attempt + 1) ≤ 2 ^ (attempt + 1 + k) :=
      Nat.pow_le_pow_right (by norm_num) (by omega)
    have h3 : attempt + 1 + k = attempt + (k + 1) := by omega
    rw [h3] at h2 ⊢
    refine congrArg _ ?_
    refine congrArg _ ?_
    omega

theorem retryLoop_exhausts {A E : Type} (io : ℕ → Except E A) (err : ℕ → E) :
    ∀ (remaining attempt slept : ℕ),
      1 ≤ remaining →
      (∀ i < remaining, io (attempt + i) = .error (err (attempt + i))) →
      retryLoop io remaining attempt slept =
        (some (.error (err (attempt + remaining - 1))), attempt + remaining,
          slept + (2 ^ (attempt + remaining - 1) - 2 ^ attempt)) := by
  intro remaining
  induction remaining with
  | zero => intro attempt slept h; omega
  | succ r ih =>
    intro attempt slept _ herr
    have he0 := herr 0 (Nat.succ_pos r)
    rw [show attempt + 0 = attempt from rfl] at he0
    by_cases hr : r = 0
    · subst hr
      rw [retryLoop_err_last attempt slept he0]
      simp
    · rw [retryLoop_err_cont r attempt slept he0 hr]
      have hrec := ih (attempt + 1) (slept + 2 ^ attempt) (by omega)
        (fun i hi => by
          have := herr (i + 1) (by omega)
          rwa [show attempt + (i + 1) = attempt + 1 + i by omega] at this)
      rw [hrec]
      have hidx : attempt + 1 + r - 1 = attempt + (r + 1) - 1 := by omega
      have h1 : 2 ^ (attempt + 1) = 2 * 2 ^ attempt := by
        rw [pow_succ]; omega
      have h2 : 2 ^ (attempt + 1) ≤ 2 ^ (attempt + 1 + r - 1) :=
        Nat.pow_le_pow_right (by norm_num) (by omega)
      rw [hidx] at h2 ⊢
      have harith : slept + 2 ^ attempt + (2 ^ (attempt + (r + 1) - 1) - 2 ^ (attempt + 1)) =
          slept + (2 ^ (attempt + (r + 1) - 1) - 2 ^ attempt) := by omega
      rw [harith]
      have hcount : attempt + 1 + r = attempt + (r + 1) := by omega
      rw [hcount]

theorem sum_range_two_pow (k : ℕ) : ∑ i ∈ Finset.range k, 2 ^ i = 2 ^ k - 1 := by
  induction k with
  | zero => simp
  | succ k ih =>
    rw [Finset.sum_range_succ, ih, pow_succ]
    have : 1 ≤ 2 ^ k := Nat.one_le_two_pow
    omega

/-- C4 (amended): for every `max_retries ≥ 1` the loop makes at most
`max_retries` attempts; when the first `k < max_retries` attempts fail
transiently and attempt number `k` (0-based) succeeds, the loop returns
that success after exactly `k + 1` attempts with total sleep
`2^0 + ... + 2^(k-1)`; and when all `max_retries` attempts fail the loop
makes exactly `max_retries` attempts, sleeps `2^0 + ... +
2^(max_retries-2)`, and re-raises the final attempt's underlying error
itself, unwrapped. -/
theorem read_band_with_retry_spec {A E : Type} (io : ℕ → Except E A)
    (max_retries : ℕ) (hm : 1 ≤ max_retries) :
    (read_band_with_retry io max_retries).2.1 ≤ max_retries ∧
    (∀ k a, k < max_retries → (∀ i < k, ∃ e, io i = .error e) → io k = .ok a →
      read_band_with_retry io max_retries =
        (some (.ok a), k + 1, ∑ i ∈ Finset.range k, 2 ^ i)) ∧
    (∀ err : ℕ → E, (∀ i < max_retries, io i = .error (err i)) →
      read_band_with_retry io max_retries =
        (some (.error (err (max_retries - 1))), max_retries,
          ∑ i ∈ Finset.range (max_retries - 1), 2 ^ i)) := by
  refine ⟨?_, ?_, ?_⟩
  · have := retryLoop_attempts_le io max_retries 0 0
    simpa [read_band_with_retry] using this
  · intro k a hk herr hok
    have := retryLoop_succeeds io a k max_retries 0 0 hk
      (by simpa using herr) (by simpa using hok)
    rw [read_band_with_retry, this, sum_range_two_pow]
    simp
  · intro err herr
    have := retryLoop_exhausts io err max_retries 0 0 hm (by simpa using herr)
    rw [read_band_with_retry, this, sum_range_two_pow]
    simp

/-- C4 witness: two transient failures then success with `max_retries = 3`
gives exactly 3 attempts and total sleep `2^0 + 2^1 = 3`; three failures
exhaust the loop after 3 attempts, sleeping 3 units, and re-raise the
third underlying error. -/
theorem read_band_with_retry_spec_witness :
    read_band_with_retry
        (fun i => if i < 2 then (.error ("fail" ++ toString i) : Except String ℕ) else .ok 7)
        3 = (some (.ok 7), 3, 3) ∧
    read_band_with_retry
        (fun i => (.error ("fail" ++ toString i) : Except String ℕ)) 3 =
      (some (.error "fail2"), 3, 3) :=
  ⟨by
    have := (read_band_with_retry_spec
      (fun i => if i < 2 then (.error ("fail" ++ toString i) : Except String ℕ) else .ok 7)
      3 (by norm_num)).2.1 2 7 (by norm_num)
      (fun i hi => ⟨"fail" ++ toString i, by
        rw [if_pos hi]⟩)
      (by norm_num)
    rw [this]
    norm_num,
   by
    have := (read_band_with_retry_spec
      (fun i => (.error ("fail" ++ toString i) : Except String ℕ)) 3 (by norm_num)).2.2
      (fun i => "fail" ++ toString i) (fun i _ => rfl)
    rw [this]
    norm_num
    rfl⟩

/-- C4 counterexample to the "tagged as `FetchExhaustedError` carrying the
attempt count" clause: with the oracle failing identically forever, runs
with `max_retries = 2` and `max_retries = 3` raise the very same error
value, so the raised error is the bare underlying exception and cannot
carry the attempt count (which differs between the two runs); it is not
wrapped in any `FetchExhaustedError` (`fetch.py` line 101 is a bare
`raise e`, and no such class exists in the repository). -/
theorem read_band_with_retry_error_untagged :
    (read_band_with_retry (fun _ => (.error "boom" : Except String ℕ)) 2).1 =
      (read_band_with_retry (fun _ => (.error "boom" : Except String ℕ)) 3).1 ∧
    (read_band_with_retry (fun _ => (.error "boom" : Except String ℕ)) 3).1 =
      some (.error "boom") ∧
    (read_band_with_retry (fun _ => (.error "boom" : Except String ℕ)) 2).2.1 = 2 ∧
    (read_band_with_retry (fun _ => (.error "boom" : Except String ℕ)) 3).2.1 = 3 :=
  ⟨rfl, rfl, rfl, rfl⟩

/-! ## `database.py` — persistence (upsert and listing)

One row of `ndvi_analysis.image_results`, with the columns the queries in
`database.py` touch. Binary image blobs are byte lists; the
JSON-serialized metadata/results blobs are kept as their serialized
strings; timestamps are abstract clock readings (`ℕ`). The `created_at` /
`updated_at` columns are absent from the INSERT column list and so take
their table defaults on insert; per the persisted-state contract those
defaults are the current timestamp (the schema definition itself is not
part of the repository's sources). -/

structure AnalysisRecord where
  analysis_id : String
  bbox : String
  start_date : String
  end_date : String
  early_image_date : String
  late_image_date : String
  selection_mode : String
  early_ndvi_image : List ℕ
  late_ndvi_image : List ℕ
  difference_image : List ℕ
  early_ndvi_metadata : String
  late_ndvi_metadata : String
  analysis_results : String
  created_at : ℕ
  updated_at : ℕ
deriving DecidableEq, Repr

/-- `DatabaseHandler.save_analysis_results` (`database.py` lines 134-227):
computes the analysis id from the four request fields, then executes the
`INSERT ... ON CONFLICT (analysis_id) DO UPDATE SET` upsert — insert a
fresh row if no row holds the id, else overwrite the three image columns,
the two metadata columns, the results column, and set
`updated_at = CURRENT_TIMESTAMP` — and returns the `RETURNING
analysis_id` value. `now` is the transaction timestamp. -/
def save_analysis_results (db : List AnalysisRecord) (now : ℕ)
    (bbox start_date end_date selection_mode : String)
    (early_image_date late_image_date : String)
    (early_ndvi_metadata late_ndvi_metadata analysis_results : String)
    (early_ndvi_image late_ndvi_image difference_image : List ℕ) :
    List AnalysisRecord × String :=
  let analysis_id := generate_analysis_id bbox start_date end_date selection_mode
  if db.any fun r => r.analysis_id == analysis_id then
    (db.map fun r =>
      if r.analysis_id == analysis_id then
        { r with
            early_ndvi_image := early_ndvi_image,
            late_ndvi_image := late_ndvi_image,
            difference_image := difference_image,
            early_ndvi_metadata := early_ndvi_metadata,
            late_ndvi_metadata := late_ndvi_metadata,
            analysis_results := analysis_results,
            updated_at := now }
      else r, analysis_id)
  else
    (db ++ [{ analysis_id := analysis_id, bbox := bbox, start_date := start_date,
              end_date := end_date, early_image_date := early_image_date,
              late_image_date := late_image_date, selection_mode := selection_mode,
              early_ndvi_image := early_ndvi_image, late_ndvi_image := late_ndvi_image,
              difference_image := difference_image,
              early_ndvi_metadata := early_ndvi_metadata,
              late_ndvi_metadata := late_ndvi_metadata,
              analysis_results := analysis_results,
              created_at := now, updated_at := now }], analysis_id)

/-- Distinctness of row keys — the uniqueness the `ON CONFLICT
(analysis_id)` constraint maintains. -/
def UniqueIds (db : List AnalysisRecord) : Prop :=
  db.Pairwise fun r s => r.analysis_id ≠ s.analysis_id

theorem filter_map_upd (g : AnalysisRecord → AnalysisRecord)
    (hg : ∀ r, (g r).analysis_id = r.analysis_id) (id : String) :
    ∀ l : List AnalysisRecord,
      ((l.map fun r => if r.analysis_id == id then g r else r).filter
        fun r => r.analysis_id == id) =
      (l.filter fun r => r.analysis_id == id).map g := by
  intro l
  induction l with
  | nil => rfl
  | cons r t ih =>
    by_cases hr : r.analysis_id = id
    · have hrb : (r.analysis_id == id) = true := beq_iff_eq.mpr hr
      have hgb : ((g r).analysis_id == id) = true := beq_iff_eq.mpr (hg r ▸ hr)
      simp only [List.map_cons, hrb, if_true, List.filter_cons, hgb, ih, List.map_cons]
    · have hrb : (r.analysis_id == id) = false := by simpa using hr
      simp only [List.map_cons, hrb, Bool.false_eq_true, if_false, List.filter_cons, ih]

theorem filter_length_le_one (id : String) :
    ∀ l : List AnalysisRecord, UniqueIds l →
      (l.filter fun r => r.analysis_id == id).length ≤ 1 := by
  intro l
  induction l with
  | nil => intro _; simp
  | cons r t ih =>
    intro hl
    have hpair := List.pairwise_cons.mp hl
    by_cases hr : r.analysis_id = id
    · have hrb : (r.analysis_id == id) = true := beq_iff_eq.mpr hr
      have htnil : (t.filter fun s => s.analysis_id == id) = [] := by
        apply List.filter_eq_nil_iff.mpr
        intro s hs
        have : s.analysis_id ≠ id := fun hc => hpair.1 s hs (by rw [hr, hc])
        simpa using this
      simp [List.filter_cons, hrb, htnil]
    · have hrb : (r.analysis_id == id) = false := by simpa using hr
      simp only [List.filter_cons, hrb, Bool.false_eq_true, if_false]
      exact ih hpair.2

theorem filter_length_ge_one (id : String) (l : List AnalysisRecord)
    (h : (l.any fun r => r.analysis_id == id) = true) :
    1 ≤ (l.filter fun r => r.analysis_id == id).length := by
  obtain ⟨r, hr, hrb⟩ := List.any_eq_true.mp h
  have : r ∈ l.filter fun r => r.analysis_id == id := List.mem_filter.mpr ⟨hr, hrb⟩
  exact List.length_pos.mpr (List.ne_nil_of_mem this)

theorem uniqueIds_map_upd (g : AnalysisRecord → AnalysisRecord)
    (hg : ∀ r, (g r).analysis_id = r.analysis_id) (id : String)
    (l : List AnalysisRecord) (hl : UniqueIds l) :
    UniqueIds (l.map fun r => if r.analysis_id == id then g r else r) := by
  unfold UniqueIds
  rw [List.pairwise_map]
  apply hl.imp_of_mem
  intro a b _ _ hab
  by_cases ha : a.analysis_id = id <;> by_cases hb : b.analysis_id = id
  · exact absurd (ha.trans hb.symm) hab
  · simp only [beq_iff_eq, ha, if_true, hb, if_false]
    rw [hg a]
    exact ha ▸ (Ne.symm (by simpa using hb))
  · simp only [beq_iff_eq, ha, if_false, hb, if_true]
    rw [hg b]
    exact hb ▸ (by simpa using ha)
  · simp only [beq_iff_eq, ha, hb, if_false]
    exact hab

/-- Core upsert postcondition: after a save, exactly one row carries the
computed id; that row holds the artifacts and metadata just saved and its
`updated_at` is the transaction timestamp; id-uniqueness is preserved;
and every save returns the id recomputed from the request fields. -/
theorem save_post (db : List AnalysisRecord) (now : ℕ)
    (bbox start_date end_date selection_mode : String)
    (ed ld em lm res : String) (ei li di : List ℕ)
    (huniq : UniqueIds db) :
    ((save_analysis_results db now bbox start_date end_date selection_mode
        ed ld em lm res ei li di).2 =
      generate_analysis_id bbox start_date end_date selection_mode) ∧
    (((save_analysis_results db now bbox start_date end_date selection_mode
        ed ld em lm res ei li di).1.filter fun r =>
          r.analysis_id == generate_analysis_id bbox start_date end_date selection_mode).length
      = 1) ∧
    (∀ r ∈ (save_analysis_results db now bbox start_date end_date selection_mode
        ed ld em lm res ei li di).1,
      r.analysis_id = generate_analysis_id bbox start_date end_date selection_mode →
        r.early_ndvi_image = ei ∧ r.late_ndvi_image = li ∧ r.difference_image = di ∧
        r.early_ndvi_metadata = em ∧ r.late_ndvi_metadata = lm ∧
        r.analysis_results = res ∧ r.updated_at = now) ∧
    UniqueIds (save_analysis_results db now bbox start_date end_date selection_mode
        ed ld em lm res ei li di).1 := by
  set id := generate_analysis_id bbox start_date end_date selection_mode with hid
  set g : AnalysisRecord → AnalysisRecord := fun r =>
    { r with
        early_ndvi_image := ei, late_ndvi_image := li, difference_image := di,
        early_ndvi_metadata := em, late_ndvi_metadata := lm,
        analysis_results := res, updated_at := now } with hgdef
  have hg : ∀ r, (g r).analysis_id = r.analysis_id := fun r => rfl
  by_cases hany : (db.any fun r => r.analysis_id == id) = true
  · have hsave : save_analysis_results db now bbox start_date end_date selection_mode
        ed ld em lm res ei li di =
        (db.map fun r => if r.analysis_id == id then g r else r, id) := by
      unfold save_analysis_results
      rw [← hid, if_pos hany]
    rw [hsave]
    refine ⟨rfl, ?_, ?_, ?_⟩
    · rw [filter_map_upd g hg id db, List.length_map]
      exact le_antisymm (filter_length_le_one id db huniq) (filter_length_ge_one id db hany)
    · intro r hr hrid
      obtain ⟨s, _, hs⟩ := List.mem_map.mp hr
      by_cases hsid : s.analysis_id = id
      · rw [if_pos (beq_iff_eq.mpr hsid)] at hs
        rw [← hs]
        exact ⟨rfl, rfl, rfl, rfl, rfl, rfl, rfl⟩
      · rw [if_neg (by simpa using hsid)] at hs
        exact absurd (hs ▸ hrid) hsid
    · exact uniqueIds_map_upd g hg id db huniq
  · have hsave : save_analysis_results db now bbox start_date end_date selection_mode
        ed ld em lm res ei li di =
        (db ++ [({ analysis_id := id,
                   bbox := bbox,
                   start_date := start_date,
                   end_date := end_date,
                   early_image_date := ed,
                   late_image_date := ld,
                   selection_mode := selection_mode,
                   early_ndvi_image := ei,
                   late_ndvi_image := li,
                   difference_image := di,
                   early_ndvi_metadata := em,
                   late_ndvi_metadata := lm,
                   analysis_results := res,
                   created_at := now,
                   updated_at := now } : AnalysisRecord)], id) := by
      unfold save_analysis_results
      rw [← hid, if_neg hany]
    have hnone : ∀ r ∈ db, r.analysis_id ≠ id := by
      intro r hr hc
      exact hany (List.any_eq_true.mpr ⟨r, hr, beq_iff_eq.mpr hc⟩)
    rw [hsave]
    refine ⟨rfl, ?_, ?_, ?_⟩
    · rw [List.filter_append]
      have h1 : (db.filter fun r => r.analysis_id == id) = [] :=
        List.filter_eq_nil_iff.mpr fun r hr => by simpa using hnone r hr
      rw [h1]
      simp
    · intro r hr hrid
      rcases List.mem_append.mp hr with hr | hr
      · exact absurd hrid (hnone r hr)
      · rw [List.mem_singleton.mp hr]
        exact ⟨rfl, rfl, rfl, rfl, rfl, rfl, rfl⟩
    · unfold UniqueIds
      rw [List.pairwise_append]
      refine ⟨huniq, List.pairwise_singleton _ _, ?_⟩
      intro r hr s hs
      rw [List.mem_singleton.mp hs]
      exact hnone r hr

/-- C7: `save` is idempotent-by-overwrite — saving twice with the same
request parameters and different artifacts leaves exactly one record
under the request's identity, holding the second artifact set with the
second save's transaction timestamp as `updated_at`, never two records;
and both saves return the identity computed from the request (a re-save
never yields a new identity). -/
theorem save_idempotent_overwrite
    (db0 : List AnalysisRecord) (t1 t2 : ℕ)
    (bbox start_date end_date selection_mode : String)
    (ed1 ld1 em1 lm1 res1 : String) (ei1 li1 di1 : List ℕ)
    (ed2 ld2 em2 lm2 res2 : String) (ei2 li2 di2 : List ℕ)
    (huniq : UniqueIds db0) :
    (save_analysis_results db0 t1 bbox start_date end_date selection_mode
        ed1 ld1 em1 lm1 res1 ei1 li1 di1).2 =
      generate_analysis_id bbox start_date end_date selection_mode ∧
    (save_analysis_results
        (save_analysis_results db0 t1 bbox start_date end_date selection_mode
          ed1 ld1 em1 lm1 res1 ei1 li1 di1).1 t2 bbox start_date end_date selection_mode
        ed2 ld2 em2 lm2 res2 ei2 li2 di2).2 =
      generate_analysis_id bbox start_date end_date selection_mode ∧
    (((save_analysis_results
        (save_analysis_results db0 t1 bbox start_date end_date selection_mode
          ed1 ld1 em1 lm1 res1 ei1 li1 di1).1 t2 bbox start_date end_date selection_mode
        ed2 ld2 em2 lm2 res2 ei2 li2 di2).1.filter fun r =>
          r.analysis_id == generate_analysis_id bbox start_date end_date selection_mode).length
      = 1) ∧
    (∀ r ∈ (save_analysis_results
        (save_analysis_results db0 t1 bbox start_date end_date selection_mode
          ed1 ld1 em1 lm1 res1 ei1 li1 di1).1 t2 bbox start_date end_date selection_mode
        ed2 ld2 em2 lm2 res2 ei2 li2 di2).1,
      r.analysis_id = generate_analysis_id bbox start_date end_date selection_mode →
        r.early_ndvi_image = ei2 ∧ r.late_ndvi_image = li2 ∧ r.difference_image = di2 ∧
        r.early_ndvi_metadata = em2 ∧ r.late_ndvi_metadata = lm2 ∧
        r.analysis_results = res2 ∧ r.updated_at = t2) := by
  have h1 := save_post db0 t1 bbox start_date end_date selection_mode
    ed1 ld1 em1 lm1 res1 ei1 li1 di1 huniq
  have h2 := save_post
    (save_analysis_results db0 t1 bbox start_date end_date selection_mode
      ed1 ld1 em1 lm1 res1 ei1 li1 di1).1 t2 bbox start_date end_date selection_mode
    ed2 ld2 em2 lm2 res2 ei2 li2 di2 h1.2.2.2
  exact ⟨h1.1, h2.1, h2.2.1, h2.2.2.1⟩

/-- C7 witness: starting from the empty store, the double save at times 1
then 2 leaves one record holding the second artifacts. -/
theorem save_idempotent_overwrite_witness :
    UniqueIds [] ∧
    (save_analysis_results
        (save_analysis_results [] 1 "[1.0, 2.0]" "2020-01-01" "2021-01-01" "smart"
          "2020-01-05" "2020-12-30" "meta-e1" "meta-l1" "res1" [1] [2] [3]).1
        2 "[1.0, 2.0]" "2020-01-01" "2021-01-01" "smart"
        "2020-01-05" "2020-12-30" "meta-e2" "meta-l2" "res2" [4] [5] [6]).2 =
      generate_analysis_id "[1.0, 2.0]" "2020-01-01" "2021-01-01" "smart" ∧
    (((save_analysis_results
        (save_analysis_results [] 1 "[1.0, 2.0]" "2020-01-01" "2021-01-01" "smart"
          "2020-01-05" "2020-12-30" "meta-e1" "meta-l1" "res1" [1] [2] [3]).1
        2 "[1.0, 2.0]" "2020-01-01" "2021-01-01" "smart"
        "2020-01-05" "2020-12-30" "meta-e2" "meta-l2" "res2" [4] [5] [6]).1.filter fun r =>
          r.analysis_id ==
            generate_analysis_id "[1.0, 2.0]" "2020-01-01" "2021-01-01" "smart").length = 1) :=
  ⟨List.Pairwise.nil,
   (save_idempotent_overwrite [] 1 2 "[1.0, 2.0]" "2020-01-01" "2021-01-01" "smart"
      "2020-01-05" "2020-12-30" "meta-e1" "meta-l1" "res1" [1] [2] [3]
      "2020-01-05" "2020-12-30" "meta-e2" "meta-l2" "res2" [4] [5] [6]
      List.Pairwise.nil).2.1,
   (save_idempotent_overwrite [] 1 2 "[1.0, 2.0]" "2020-01-01" "2021-01-01" "smart"
      "2020-01-05" "2020-12-30" "meta-e1" "meta-l1" "res1" [1] [2] [3]
      "2020-01-05" "2020-12-30" "meta-e2" "meta-l2" "res2" [4] [5] [6]
      List.Pairwise.nil).2.2.1⟩

/-- Descending creation-time order — the `ORDER BY created_at DESC` of
`DatabaseHandler.list_analyses` (`database.py` line 338). -/
def byCreatedDesc (a b : AnalysisRecord) : Prop :=
  b.created_at ≤ a.created_at

instance : DecidableRel byCreatedDesc := fun _ _ => Nat.decLe _ _

instance : IsTotal AnalysisRecord byCreatedDesc := ⟨fun _ _ => Nat.le_total _ _⟩

instance : IsTrans AnalysisRecord byCreatedDesc :=
  ⟨fun _ _ _ h1 h2 => Nat.le_trans h2 h1⟩

/-- `DatabaseHandler.list_analyses` (`database.py` lines 319-359):
`SELECT ... ORDER BY created_at DESC LIMIT limit`. The summary projection
drops the blob columns; order and count, which the claims concern, are
those of the full rows. -/
def list_analyses (db : List AnalysisRecord) (limit : ℕ) : List AnalysisRecord :=
  (db.insertionSort byCreatedDesc).take limit

/-- C8 counterexample: with record "a" (created 1, updated 10) and record
"b" (created 2, updated 3) in the store, the listing is ordered by
creation time descending — "b" before "a" — and the first summary's
update timestamp 3 is strictly below the second's 10, refuting "each
summary has an update timestamp ≥ that of the summary after it". -/
theorem list_analyses_not_newest_update_first :
    ¬ ((list_analyses
        [({ analysis_id := "a",
            bbox := "",
            start_date := "",
            end_date := "",
            early_image_date := "",
            late_image_date := "",
            selection_mode := "",
            early_ndvi_image := [],
            late_ndvi_image := [],
            difference_image := [],
            early_ndvi_metadata := "",
            late_ndvi_metadata := "",
            analysis_results := "",
            created_at := 1,
            updated_at := 10 } : AnalysisRecord),
         ({ analysis_id := "b",
            bbox := "",
            start_date := "",
            end_date := "",
            early_image_date := "",
            late_image_date := "",
            selection_mode := "",
            early_ndvi_image := [],
            late_ndvi_image := [],
            difference_image := [],
            early_ndvi_metadata := "",
            late_ndvi_metadata := "",
            analysis_results := "",
            created_at := 2,
            updated_at := 3 } : AnalysisRecord)] 100).Pairwise
      fun x y => y.updated_at ≤ x.updated_at) := by
  decide

/-- C8 (amended): the listing returns at most `limit` summaries ordered
newest *creation* first — each summary's creation timestamp is at least
that of the summary after it — and every summary comes from the store. -/
theorem list_analyses_ordering (db : List AnalysisRecord) (limit : ℕ) :
    (list_analyses db limit).length ≤ limit ∧
    ((list_analyses db limit).Pairwise fun a b => b.created_at ≤ a.created_at) ∧
    ∀ r ∈ list_analyses db limit, r ∈ db := by
  refine ⟨?_, ?_, ?_⟩
  · unfold list_analyses
    exact le_trans (List.length_take_le _ _) (le_refl _)
  · unfold list_analyses
    exact List.Pairwise.sublist (List.take_sublist _ _)
      (List.sorted_insertionSort byCreatedDesc db)
  · intro r hr
    unfold list_analyses at hr
    exact (List.perm_insertionSort byCreatedDesc db).mem_iff.mp
      ((List.take_sublist _ _).mem hr)

/-- C8 (amended) witness at a concrete store. -/
theorem list_analyses_ordering_witness :
    (list_analyses [] 5).length ≤ 5 :=
  (list_analyses_ordering [] 5).1

/-! ## `visualize.py` — normalizations

`np.percentile` with the default linear interpolation, over rationals:
rank `q/100 * (n-1)` into the sorted data, linearly interpolated between
the two neighbouring order statistics. -/

def np_percentile (data : List ℚ) (q : ℚ) : ℚ :=
  let s := data.insertionSort fun a b : ℚ => a ≤ b
  let n := s.length
  let pos := q * ((n : ℚ) - 1) / 100
  let i := (Int.floor pos).toNat
  let frac := pos - Int.floor pos
  let lo := s.getD i 0
  let hi := s.getD (min (i + 1) (n - 1)) 0
  lo + frac * (hi - lo)

/-- `percentile_stretch` (`visualize.py` lines 4-26): clip the data to the
`[lower, upper]` percentile values, then rescale by
`(x - lower) / (upper - lower) * 255`. The rescale's denominator is
`upper_val - lower_val`; when the two percentiles coincide the division is
by exact zero (a NaN-producing `0/0` in numpy, fed to the uint8 cast), so
the result is modelled as `none`; the trailing `astype(np.uint8)` on the
well-defined branch is elementwise and immaterial to the claims here. -/
def percentile_stretch (data : List ℚ) (lower_percentile upper_percentile : ℚ) :
    Option (List ℚ) :=
  let lower_val := np_percentile data lower_percentile
  let upper_val := np_percentile data upper_percentile
  if upper_val - lower_val = 0 then none
  else some (data.map fun x =>
    (min (max x lower_val) upper_val - lower_val) / (upper_val - lower_val) * 255)

/-- `ndarray.min()` over the list model (callers never pass empty
rasters). -/
def pyArrMin (l : List ℚ) : ℚ :=
  match l with
  | [] => 0
  | x :: xs => xs.foldl min x

/-- `ndarray.max()` over the list model. -/
def pyArrMax (l : List ℚ) : ℚ :=
  match l with
  | [] => 0
  | x :: xs => xs.foldl max x

/-- The symmetric difference normalization of `save_ndvi_diff`
(`visualize.py` lines 47-50), also used by `process_ndvi_for_composite`
(lines 277-279): `abs_max = max(abs(min), abs(max))`, then
`(diff + abs_max) / (2 * abs_max) * 255`. A diff raster with
`abs_max = 0` divides by exact zero, modelled as `none`. -/
def diff_normalized (diff : List ℚ) : Option (List ℚ) :=
  let abs_max := max |pyArrMin diff| |pyArrMax diff|
  if 2 * abs_max = 0 then none
  else some (diff.map fun x => (x + abs_max) / (2 * abs_max) * 255)

theorem getD_replicate_of_lt (n i : ℕ) (c : ℚ) (h : i < n) :
    (List.replicate n c).getD i 0 = c := by
  rw [List.getD_eq_getElem _ _ (by simpa using h)]
  simp

theorem insertionSort_replicate (n : ℕ) (c : ℚ) :
    (List.replicate n c).insertionSort (fun a b : ℚ => a ≤ b) = List.replicate n c := by
  apply List.eq_replicate_iff.mpr
  constructor
  · exact (List.perm_insertionSort _ _).length_eq.trans (List.length_replicate n c)
  · intro b hb
    exact List.eq_of_mem_replicate ((List.perm_insertionSort _ _).mem_iff.mp hb)

theorem np_percentile_replicate (n : ℕ) (c : ℚ) (q : ℚ) (hq0 : 0 ≤ q)
    (hq1 : q ≤ 100) :
    np_percentile (List.replicate (n + 1) c) q = c := by
  simp only [np_percentile, insertionSort_replicate, List.length_replicate]
  have hposn : q * ((((n : ℕ) + 1 : ℕ) : ℚ) - 1) / 100 = q * (n : ℚ) / 100 := by
    push_cast
    ring
  rw [hposn]
  have hpos0 : 0 ≤ q * (n : ℚ) / 100 := by positivity
  have hposn' : q * (n : ℚ) / 100 ≤ (n : ℚ) := by
    rw [div_le_iff₀ (by norm_num : (0:ℚ) < 100)]
    calc q * (n : ℚ) ≤ 100 * (n : ℚ) := by
          apply mul_le_mul_of_nonneg_right hq1 (Nat.cast_nonneg n)
      _ = (n : ℚ) * 100 := by ring
  have hfl0 : 0 ≤ Int.floor (q * (n : ℚ) / 100) := by
    apply Int.floor_nonneg.mpr hpos0
  have hfln : Int.floor (q * (n : ℚ) / 100) ≤ (n : ℤ) := by
    have hmono := Int.floor_le_floor hposn'
    simpa using hmono
  have hi_lt : (Int.floor (q * (n : ℚ) / 100)).toNat < n + 1 := by omega
  have hi2_lt : min ((Int.floor (q * (n : ℚ) / 100)).toNat + 1) (n + 1 - 1) < n + 1 := by
    omega
  rw [getD_replicate_of_lt _ _ _ hi_lt, getD_replicate_of_lt _ _ _ hi2_lt]
  ring

theorem foldl_min_zeros : ∀ (l : List ℚ), (∀ x ∈ l, x = 0) → l.foldl min 0 = 0 := by
  intro l
  induction l with
  | nil => intro _; rfl
  | cons x xs ih =>
    intro h
    have hx : x = 0 := h x (List.mem_cons_self x xs)
    simp only [List.foldl_cons, hx, min_self]
    exact ih fun y hy => h y (List.mem_cons_of_mem x hy)

theorem foldl_max_zeros : ∀ (l : List ℚ), (∀ x ∈ l, x = 0) → l.foldl max 0 = 0 := by
  intro l
  induction l with
  | nil => intro _; rfl
  | cons x xs ih =>
    intro h
    have hx : x = 0 := h x (List.mem_cons_self x xs)
    simp only [List.foldl_cons, hx, max_self]
    exact ih fun y hy => h y (List.mem_cons_of_mem x hy)

/-- C10: the visualization normalizations are not total. Whenever the 2nd
and 98th percentiles of the input coincide — in particular on every
constant raster — the `percentile_stretch` rescale divides by exact zero
(`none`); and on every identically-zero difference raster `abs_max = 0`,
so the symmetric `(diff + abs_max) / (2 * abs_max)` normalization divides
by exact zero (`none`): the zero-change midpoint mapping is undefined
there rather than the visual midpoint. -/
theorem normalization_not_total (data : List ℚ) (n : ℕ) (c : ℚ)
    (hcoincide : np_percentile data 2 = np_percentile data 98) :
    percentile_stretch data 2 98 = none ∧
    np_percentile (List.replicate (n + 1) c) 2 = np_percentile (List.replicate (n + 1) c) 98 ∧
    percentile_stretch (List.replicate (n + 1) c) 2 98 = none ∧
    (∀ d : List ℚ, (∀ x ∈ d, x = 0) → diff_normalized d = none) := by
  have hconst : ∀ m : ℕ, ∀ a : ℚ,
      np_percentile (List.replicate (m + 1) a) 2 = np_percentile (List.replicate (m + 1) a) 98 := by
    intro m a
    rw [np_percentile_replicate m a 2 (by norm_num) (by norm_num),
      np_percentile_replicate m a 98 (by norm_num) (by norm_num)]
  refine ⟨?_, hconst n c, ?_, ?_⟩
  · unfold percentile_stretch
    rw [if_pos (by rw [hcoincide]; ring)]
  · unfold percentile_stretch
    rw [if_pos (by rw [hconst n c]; ring)]
  · intro d hd
    have hmin : pyArrMin d = 0 := by
      cases d with
      | nil => rfl
      | cons x xs =>
        have hx : x = 0 := hd x (List.mem_cons_self x xs)
        show xs.foldl min x = 0
        rw [hx]
        exact foldl_min_zeros xs fun y hy => hd y (List.mem_cons_of_mem x hy)
    have hmax : pyArrMax d = 0 := by
      cases d with
      | nil => rfl
      | cons x xs =>
        have hx : x = 0 := hd x (List.mem_cons_self x xs)
        show xs.foldl max x = 0
        rw [hx]
        exact foldl_max_zeros xs fun y hy => hd y (List.mem_cons_of_mem x hy)
    unfold diff_normalized
    rw [if_pos (by rw [hmin, hmax]; simp)]

/-- C10 witness: the constant three-pixel raster of value 1/2 (coinciding
percentiles) is rejected by the stretch, and the identically-zero
difference raster `[0, 0]` is rejected by the symmetric normalization. -/
theorem normalization_not_total_witness :
    np_percentile (List.replicate (2 + 1) ((1:ℚ)/2)) 2 =
      np_percentile (List.replicate (2 + 1) ((1:ℚ)/2)) 98 ∧
    percentile_stretch (List.replicate (2 + 1) ((1:ℚ)/2)) 2 98 = none ∧
    diff_normalized [(0:ℚ), 0] = none := by
  have hco : np_percentile (List.replicate (2 + 1) ((1:ℚ)/2)) 2 =
      np_percentile (List.replicate (2 + 1) ((1:ℚ)/2)) 98 := by
    rw [np_percentile_replicate 2 ((1:ℚ)/2) 2 (by norm_num) (by norm_num),
      np_percentile_replicate 2 ((1:ℚ)/2) 98 (by norm_num) (by norm_num)]
  have h := normalization_not_total (List.replicate (2 + 1) ((1:ℚ)/2)) 2 ((1:ℚ)/2) hco
  exact ⟨hco, h.1, h.2.2.2 [(0:ℚ), 0] (by decide)⟩

end Spectron
